import Mathlib

/-!
Verification of the event-buffering engine (the `EventsService` of this
repository).

Shallow embedding of the Angular/RxJS event-buffering service.  The engine
(`src/unnamed/part_000`) pipes a `Subject` of events through

  `tap` (push to `currentBuffer`, stamp `lastEventTimestamp`, publish size)
  → `bufferWhen (fun _ => race [eventsSubject.pipe (delay DELAY),
                                eventsSubject.pipe (bufferCount EVENTS_COUNT_BEFORE_SEND),
                                flushSubject])`
  → `tap` (skip empty batches, update metrics, publish batch, clear buffer).

We model this as a deterministic state machine driven by an explicit trace of
operations (`send`, `flushBuffer`, timer callbacks, `configure`).  The RxJS
semantics embedded here, checked against the rxjs 7 operator sources:

* `bufferWhen` invokes its closing-selector arrow function at subscription
  time and again immediately after each buffer emission; the arrow body reads
  `this.DELAY` and `this.EVENTS_COUNT_BEFORE_SEND` at that moment, so each
  accumulation cycle runs with a snapshot of the configuration taken when the
  cycle opened (`cycleDelay`, `cycleCount` below).
* `delay d` re-emits every source value `d` ms later (a shift, not a
  debounce).  Inside `race`, only the earliest shifted emission matters: the
  notifier can fire at (time of the first event of the cycle) + `cycleDelay`.
  We record that instant in `timerDeadline`; it is set by the first `send` of
  a cycle and is NOT moved by later sends.  The scheduled callback is an
  asynchronous `timerFire` operation in the trace; it is inert once the cycle
  has closed (race unsubscribes the losers), which the model captures by
  clearing `timerDeadline` on release.
* `bufferCount n` (for `n ≥ 1`) emits once its internal buffer holds `n`
  values; within a cycle only the first emission matters.  For `n = 0` the
  rxjs operator never creates a buffer (`count % 0` is `NaN`) and never
  emits; for negative `n` every value opens a buffer whose length instantly
  satisfies `n ≤ length`, so it fires on the first value of the cycle.
* A `Subject`'s `next` iterates the observer list current at call time, so
  subscriptions created during an emission (the freshly opened cycle's race)
  do not observe the value that triggered the previous release.  Observer
  order on `eventsSubject` matters: `bufferWhen` runs its `openBuffer` —
  which invokes the closing selector and subscribes the first cycle's race —
  BEFORE it subscribes to its source, i.e. before the upstream `tap` chain
  subscribes.  Hence in the INITIAL cycle the race observes each event
  before it is buffered: a count-threshold fire there releases a batch
  that excludes the triggering event, which is then pushed into the next
  cycle's buffer unseen by that cycle's freshly subscribed race.  Every
  later cycle's race is subscribed while the `tap` chain is already
  present, so from the first release on the tap buffers the event first
  and a count fire includes its trigger.  The state records this with
  `raceFirst`, true only for the initial cycle.

`flushBuffer` (part_000 lines 160–170) nexts `flushSubject` only when
`currentBuffer` is non-empty.  `configure` (lines 144–154) overwrites the two
configuration fields with whatever is supplied, with no validation.
-/

namespace BufferService

/-- Event DTO from the source, `IEventDto`: `{ name: string; data: number }`. -/
structure IEventDto where
  name : String
  data : Int
deriving DecidableEq, Repr

/-- The observable state of one `EventsService` instance together with the
emission history of its output subjects. -/
structure EventsServiceState where
  /-- Field `DELAY`: currently configured inactivity delay (ms). -/
  DELAY : Int
  /-- Field `EVENTS_COUNT_BEFORE_SEND`: currently configured count threshold. -/
  EVENTS_COUNT_BEFORE_SEND : Int
  /-- Field `currentBuffer`: events held since the last emitted batch. -/
  currentBuffer : List IEventDto
  /-- Field `lastEventTimestamp`: set at construction and on every event's `tap`. -/
  lastEventTimestamp : Int
  /-- Signal `totalEventsProcessed`. -/
  totalEventsProcessed : Nat
  /-- Signal `totalBatchesSent`. -/
  totalBatchesSent : Nat
  /-- Signal `isProcessingBatch` (set `true` in the batch `tap`; the simulated
  network callback later resets it, which is outside the modeled trace). -/
  isProcessingBatch : Bool
  /-- Current value of the `bufferSizeSubject` behavior subject. -/
  bufferSizeValue : Nat
  /-- Emissions of `bufferSizeSubject` after the initial `0`, oldest first. -/
  bufferSizeLog : List Nat
  /-- Emissions of `bufferedEventsSubject` (`bufferedEvents$`), oldest first. -/
  emittedBatches : List (List IEventDto)
  /-- Delay snapshot read when the open cycle's closing notifier was built. -/
  cycleDelay : Int
  /-- Count-threshold snapshot for the open cycle. -/
  cycleCount : Int
  /-- Instant at which the open cycle's `delay`-shifted notifier first fires:
  (first event of the cycle) + `cycleDelay`; `none` before that event. -/
  timerDeadline : Option Int
  /-- Number of events seen by the open cycle's `bufferCount` subscription. -/
  cycleEventCount : Nat
  /-- Whether the open cycle's race subscriptions precede the `tap` chain in
  the observer list of `eventsSubject`: true only for the initial cycle,
  whose race was subscribed by `openBuffer` before `bufferWhen` subscribed
  to its source; every release subscribes the next race after the tap. -/
  raceFirst : Bool
deriving DecidableEq, Repr

/-- State right after `new EventsService()` at time `now`: defaults
`DELAY = 5000`, `EVENTS_COUNT_BEFORE_SEND = 100`; the first cycle's closing
notifier is built immediately with a snapshot of those defaults. -/
def initState (now : Int) : EventsServiceState :=
  { DELAY := 5000
    EVENTS_COUNT_BEFORE_SEND := 100
    currentBuffer := []
    lastEventTimestamp := now
    totalEventsProcessed := 0
    totalBatchesSent := 0
    isProcessingBatch := false
    bufferSizeValue := 0
    bufferSizeLog := []
    emittedBatches := []
    cycleDelay := 5000
    cycleCount := 100
    timerDeadline := none
    cycleEventCount := 0
    raceFirst := true }

/-- Whether the cycle's `bufferCount cycleCount` subscription emits when its
`newCount`-th event arrives (rxjs semantics for zero/negative sizes noted in
the header comment). -/
def bufferCountFires (cycleCount : Int) (newCount : Nat) : Bool :=
  if 0 < cycleCount then (newCount : Int) = cycleCount
  else if cycleCount = 0 then false
  else true

/-- One firing of the closing notifier: `bufferWhen` emits the buffer
downstream, the downstream `tap` skips it when empty and otherwise updates the
metrics signals, publishes on `bufferedEvents$`, clears `currentBuffer` and
publishes buffer size `0`; then `bufferWhen` opens the next cycle, invoking
the closing selector again, which snapshots the current configuration and
subscribes fresh (inert until the next event) timer/count sources. -/
def releaseBatch (s : EventsServiceState) : EventsServiceState :=
  let afterTap : EventsServiceState :=
    if s.currentBuffer.length > 0 then
      { s with
        isProcessingBatch := true
        totalBatchesSent := s.totalBatchesSent + 1
        totalEventsProcessed := s.totalEventsProcessed + s.currentBuffer.length
        emittedBatches := s.emittedBatches ++ [s.currentBuffer]
        currentBuffer := []
        bufferSizeValue := 0
        bufferSizeLog := s.bufferSizeLog ++ [0] }
    else s
  { afterTap with
    cycleDelay := afterTap.DELAY
    cycleCount := afterTap.EVENTS_COUNT_BEFORE_SEND
    timerDeadline := none
    cycleEventCount := 0
    raceFirst := false }

/-- Effect of the upstream `tap` observing an event: append to
`currentBuffer`, stamp `lastEventTimestamp`, publish the new size. -/
def tapPush (s : EventsServiceState) (e : IEventDto) (t : Int) : EventsServiceState :=
  { s with
    currentBuffer := s.currentBuffer ++ [e]
    lastEventTimestamp := t
    bufferSizeValue := s.currentBuffer.length + 1
    bufferSizeLog := s.bufferSizeLog ++ [s.currentBuffer.length + 1] }

/-- Effect of the open cycle's race sources observing an event: the `delay`
source schedules its shifted emission if this is the first event the race
sees, and `bufferCount` counts it. -/
def raceObserve (s : EventsServiceState) (t : Int) : EventsServiceState :=
  { s with
    timerDeadline :=
      match s.timerDeadline with
      | none => some (t + s.cycleDelay)
      | some d => some d
    cycleEventCount := s.cycleEventCount + 1 }

/-- Method `send` at time `t`.  From the first release on (`raceFirst`
false) the upstream `tap` buffers the event, then the race observes it and
the cycle closes synchronously — including the event — when the count
threshold is reached.  In the initial cycle (`raceFirst` true) the race
observes the event first: a count fire releases the buffer WITHOUT the
event, which the tap then pushes into the freshly opened cycle's buffer,
unseen by the new race (its subscriptions were created during this very
emission); the old race's deadline/count fields are reset by the release
either way, so the fire path is written on `s` directly. -/
def sendStep (s : EventsServiceState) (e : IEventDto) (t : Int) : EventsServiceState :=
  if s.raceFirst then
    if bufferCountFires s.cycleCount (s.cycleEventCount + 1) then
      tapPush (releaseBatch s) e t
    else raceObserve (tapPush s e t) t
  else
    if bufferCountFires s.cycleCount (s.cycleEventCount + 1) then
      releaseBatch (raceObserve (tapPush s e t) t)
    else raceObserve (tapPush s e t) t

/-- Method `flushBuffer`: nexts `flushSubject` (closing the cycle) only when
`currentBuffer` is non-empty; otherwise it only logs. -/
def flushStep (s : EventsServiceState) : EventsServiceState :=
  if s.currentBuffer.length > 0 then releaseBatch s else s

/-- The scheduler running the `delay`-shifted emission at time `t`.  It has
an effect only if the cycle that scheduled it is still open (`timerDeadline`
is still set) and the deadline has been reached. -/
def timerFireStep (s : EventsServiceState) (t : Int) : EventsServiceState :=
  match s.timerDeadline with
  | some d => if d ≤ t then releaseBatch s else s
  | none => s

/-- Method `configure`: each supplied field overwrites the corresponding
configuration field; nothing else is touched and nothing is validated. -/
def configureStep (s : EventsServiceState) (d? b? : Option Int) : EventsServiceState :=
  let s1 : EventsServiceState :=
    match d? with
    | some d => { s with DELAY := d }
    | none => s
  match b? with
  | some b => { s1 with EVENTS_COUNT_BEFORE_SEND := b }
  | none => s1

/-- Method `getTimeUntilNextBatch` (part_000 lines 177–181):
`Math.max(0, DELAY - (now - lastEventTimestamp))`. -/
def getTimeUntilNextBatch (s : EventsServiceState) (now : Int) : Int :=
  max 0 (s.DELAY - (now - s.lastEventTimestamp))

/-- Method `getCurrentBufferSize` (part_000 lines 187–189). -/
def getCurrentBufferSize (s : EventsServiceState) : Nat :=
  s.currentBuffer.length

/-- External operations driving the engine. -/
inductive Op where
  | send (e : IEventDto) (t : Int)
  | flush
  | timerFire (t : Int)
  | configure (d? b? : Option Int)
deriving DecidableEq, Repr

/-- Interpretation of one operation. -/
def step (s : EventsServiceState) : Op → EventsServiceState
  | .send e t => sendStep s e t
  | .flush => flushStep s
  | .timerFire t => timerFireStep s t
  | .configure d? b? => configureStep s d? b?

/-- Run a trace of operations. -/
def run (s : EventsServiceState) (ops : List Op) : EventsServiceState :=
  ops.foldl step s

/-- The events passed to `send` along a trace, in arrival order. -/
def sentEvents : List Op → List IEventDto
  | [] => []
  | .send e _ :: rest => e :: sentEvents rest
  | .flush :: rest => sentEvents rest
  | .timerFire _ :: rest => sentEvents rest
  | .configure _ _ :: rest => sentEvents rest

/-- Concatenation of all batches emitted so far, in emission order. -/
def joinBatches (s : EventsServiceState) : List IEventDto :=
  s.emittedBatches.flatten

/-- The state after both the upstream `tap` and the race sources have
observed an event (before any count-triggered release); the two effects
touch disjoint fields, so this is the no-fire result in either observer
order. -/
def afterSendTap (s : EventsServiceState) (e : IEventDto) (t : Int) : EventsServiceState :=
  raceObserve (tapPush s e t) t

/-- Sample event used in the concrete scenarios below. -/
def ev (i : Int) : IEventDto := { name := "e", data := i }

/-- Concrete service state whose open cycle has count threshold 2: the
service is reconfigured to batch size 2, receives one event and is flushed,
so the next cycle snapshots the new threshold. -/
def stC3 : EventsServiceState :=
  run (initState 0) [Op.configure none (some 2), Op.send (ev 9) 0, Op.flush]


/-- Concrete service state holding one pending event. -/
def stBuf1 : EventsServiceState :=
  run (initState 0) [Op.send (ev 1) 0]

/-- The claim C2 scenario on the code's schedule: default configuration
(delay 5000, count threshold 100), one event every 2500 ms for 10 intervals,
then silence; the timer callbacks the code actually schedules — the shifted
first emission of each cycle, due 5000 ms after that cycle's first event —
are delivered at their deadlines. -/
def trcC2 : List Op :=
  [Op.send (ev 1) 0, Op.send (ev 2) 2500, Op.timerFire 5000,
   Op.send (ev 3) 5000, Op.send (ev 4) 7500, Op.timerFire 10000,
   Op.send (ev 5) 10000, Op.send (ev 6) 12500, Op.timerFire 15000,
   Op.send (ev 7) 15000, Op.send (ev 8) 17500, Op.timerFire 20000,
   Op.send (ev 9) 20000, Op.send (ev 10) 22500, Op.timerFire 25000]

/-- The claim C3 scenario on a fresh service: the initial cycle's snapshot
count threshold is the default N = 100; exactly 100 events are sent (at
times 0..99, far below the default delay 5000, so the delayed notifier
cannot fire first), with no flush and no timer callback. -/
def trcC3cx : List Op := (List.range 100).map (fun i => Op.send (ev i) i)

/-- The claim C4 scenario: delay 10000, count threshold 100, three events,
then a manual flush. -/
def trcC4 : List Op :=
  [Op.configure (some 10000) (some 100), Op.send (ev 1) 0, Op.send (ev 2) 1,
   Op.send (ev 3) 2, Op.flush]

/-- The claim C6 scenario: a cycle is opened with count threshold 3 (via a
reconfiguration and a flushed first cycle); after 2 pending events the batch
size is lowered to 2 mid-cycle; the open cycle still closes on its 3rd
event, and only the following cycle closes after 2. -/
def trcC6 : List Op :=
  [Op.configure none (some 3), Op.send (ev 0) 0, Op.flush,
   Op.send (ev 1) 10, Op.send (ev 2) 20, Op.configure none (some 2),
   Op.send (ev 3) 30, Op.send (ev 4) 40, Op.send (ev 5) 50]

/-- The delay configured after a trace: `DELAY` starts at `d0` and is
overwritten by each `configure` that supplies a delay. -/
def effDelay (d0 : Int) : List Op → Int
  | [] => d0
  | Op.configure d? _ :: rest => effDelay (d?.getD d0) rest
  | Op.send _ _ :: rest => effDelay d0 rest
  | Op.flush :: rest => effDelay d0 rest
  | Op.timerFire _ :: rest => effDelay d0 rest

/-- The time of the last send of a trace (`t0` when the trace has none):
this is what `lastEventTimestamp` tracks. -/
def lastSendTime (t0 : Int) : List Op → Int
  | [] => t0
  | Op.send _ t :: rest => lastSendTime t rest
  | Op.flush :: rest => lastSendTime t0 rest
  | Op.timerFire _ :: rest => lastSendTime t0 rest
  | Op.configure _ _ :: rest => lastSendTime t0 rest

/-- Rounding used by `DataService.updateAverageBatchSize`:
`Math.round(newAvg * 10) / 10` where JavaScript's `Math.round x` is
`⌊x + 1/2⌋`. -/
def roundTo1 (q : ℚ) : ℚ := (⌊q * 10 + 1 / 2⌋ : ℚ) / 10

/-- Method `updateAverageBatchSize` of `DataService`
(`src/src/services/data.service.ts` lines 212–224) as a pure function of the
values it reads: `totalBatchesSent` (already incremented for the new batch),
the stored `averageBatchSize`, and the latest batch size. -/
def updateAverageBatchSize (totalBatchesSent : Nat) (averageBatchSize : ℚ)
    (latestBatchSize : Nat) : ℚ :=
  if totalBatchesSent = 0 then averageBatchSize
  else
    let newAvg : ℚ :=
      if averageBatchSize = 0 then (latestBatchSize : ℚ)
      else (averageBatchSize * ((totalBatchesSent : ℚ) - 1) + (latestBatchSize : ℚ))
        / (totalBatchesSent : ℚ)
    roundTo1 newAvg

/-- The engine totals and the `DataService` stored average after a sequence
of batch emissions of the given sizes: (`totalEventsProcessed`,
`totalBatchesSent`, `averageBatchSize`).  The `bufferedEvents$` handler runs
synchronously inside the engine's emission, before the Angular effect that
copies the engine's `totalBatchesSent` into the `DataService` signal can
run, so `updateAverageBatchSize` reads the STALE count of the previous
batch; in particular the first batch is skipped entirely by the
`totalBatchesSent() === 0` guard. -/
def dataMetricsAfter (sizes : List Nat) : Nat × Nat × ℚ :=
  sizes.foldl
    (fun acc sz =>
      (acc.1 + sz, acc.2.1 + 1, updateAverageBatchSize acc.2.1 acc.2.2 sz))
    ((0 : Nat), (0 : Nat), (0 : ℚ))

/-! Basic step lemmas. -/

theorem run_nil (s : EventsServiceState) : run s [] = s := rfl

theorem run_cons (s : EventsServiceState) (op : Op) (ops : List Op) :
    run s (op :: ops) = run (step s op) ops := rfl

theorem run_append (s : EventsServiceState) (l1 l2 : List Op) :
    run s (l1 ++ l2) = run (run s l1) l2 :=
  List.foldl_append step s l1 l2

lemma releaseBatch_of_ne (s : EventsServiceState) (h : s.currentBuffer ≠ []) :
    releaseBatch s =
      { s with
        isProcessingBatch := true
        totalBatchesSent := s.totalBatchesSent + 1
        totalEventsProcessed := s.totalEventsProcessed + s.currentBuffer.length
        emittedBatches := s.emittedBatches ++ [s.currentBuffer]
        currentBuffer := []
        bufferSizeValue := 0
        bufferSizeLog := s.bufferSizeLog ++ [0]
        cycleDelay := s.DELAY
        cycleCount := s.EVENTS_COUNT_BEFORE_SEND
        timerDeadline := none
        cycleEventCount := 0
        raceFirst := false } := by
  have hlen : s.currentBuffer.length > 0 := List.length_pos.mpr h
  simp [releaseBatch, hlen]

lemma releaseBatch_of_empty (s : EventsServiceState) (h : s.currentBuffer = []) :
    releaseBatch s =
      { s with
        cycleDelay := s.DELAY
        cycleCount := s.EVENTS_COUNT_BEFORE_SEND
        timerDeadline := none
        cycleEventCount := 0
        raceFirst := false } := by
  simp [releaseBatch, h]

lemma bufferCountFires_true {cc : Int} {n : Nat} (hpos : 0 < cc) (h : (n : Int) = cc) :
    bufferCountFires cc n = true := by
  simp [bufferCountFires, hpos, h]

lemma bufferCountFires_false {cc : Int} {n : Nat} (hpos : 0 < cc) (h : (n : Int) ≠ cc) :
    bufferCountFires cc n = false := by
  simp [bufferCountFires, hpos, h]

lemma sendStep_no_fire (s : EventsServiceState) (e : IEventDto) (t : Int)
    (h : bufferCountFires s.cycleCount (s.cycleEventCount + 1) = false) :
    sendStep s e t = afterSendTap s e t := by
  unfold sendStep afterSendTap
  cases s.raceFirst <;> simp [h]

lemma sendStep_fire (s : EventsServiceState) (e : IEventDto) (t : Int)
    (hrf : s.raceFirst = false)
    (h : bufferCountFires s.cycleCount (s.cycleEventCount + 1) = true) :
    sendStep s e t = releaseBatch (afterSendTap s e t) := by
  unfold sendStep afterSendTap
  rw [hrf]
  simp [h]

lemma sendStep_fire_raceFirst (s : EventsServiceState) (e : IEventDto) (t : Int)
    (hrf : s.raceFirst = true)
    (h : bufferCountFires s.cycleCount (s.cycleEventCount + 1) = true) :
    sendStep s e t = tapPush (releaseBatch s) e t := by
  unfold sendStep
  rw [hrf]
  simp [h]

lemma afterSendTap_raceFirst (s : EventsServiceState) (e : IEventDto) (t : Int) :
    (afterSendTap s e t).raceFirst = s.raceFirst := rfl

lemma tapPush_emitted (s : EventsServiceState) (e : IEventDto) (t : Int) :
    (tapPush s e t).emittedBatches = s.emittedBatches := rfl

lemma tapPush_currentBuffer (s : EventsServiceState) (e : IEventDto) (t : Int) :
    (tapPush s e t).currentBuffer = s.currentBuffer ++ [e] := rfl

/-! Conservation: no event is lost or duplicated, order is preserved. -/

lemma releaseBatch_conserve (s : EventsServiceState) :
    joinBatches (releaseBatch s) ++ (releaseBatch s).currentBuffer
      = joinBatches s ++ s.currentBuffer := by
  by_cases h : s.currentBuffer = []
  · rw [releaseBatch_of_empty s h]
    simp [joinBatches]
  · rw [releaseBatch_of_ne s h]
    simp [joinBatches]

lemma step_conserve (s : EventsServiceState) (op : Op) :
    joinBatches (step s op) ++ (step s op).currentBuffer
      = (joinBatches s ++ s.currentBuffer) ++ sentEvents [op] := by
  cases op with
  | send e t =>
    show joinBatches (sendStep s e t) ++ (sendStep s e t).currentBuffer = _
    by_cases h : bufferCountFires s.cycleCount (s.cycleEventCount + 1) = true
    · cases hrf : s.raceFirst with
      | true =>
        rw [sendStep_fire_raceFirst s e t hrf h]
        rw [show joinBatches (tapPush (releaseBatch s) e t) = joinBatches (releaseBatch s)
          from rfl]
        rw [tapPush_currentBuffer, ← List.append_assoc, releaseBatch_conserve]
        simp [sentEvents]
      | false =>
        rw [sendStep_fire s e t hrf h, releaseBatch_conserve]
        simp [afterSendTap, raceObserve, tapPush, joinBatches, sentEvents]
    · simp only [Bool.not_eq_true] at h
      rw [sendStep_no_fire s e t h]
      simp [afterSendTap, raceObserve, tapPush, joinBatches, sentEvents]
  | flush =>
    show joinBatches (flushStep s) ++ (flushStep s).currentBuffer = _
    unfold flushStep
    by_cases h : s.currentBuffer.length > 0 <;>
      simp [h, releaseBatch_conserve, sentEvents]
  | timerFire t =>
    show joinBatches (timerFireStep s t) ++ (timerFireStep s t).currentBuffer = _
    unfold timerFireStep
    cases hd : s.timerDeadline with
    | none => simp [sentEvents]
    | some d =>
      by_cases h : d ≤ t <;> simp [h, releaseBatch_conserve, sentEvents]
  | configure d? b? =>
    show joinBatches (configureStep s d? b?) ++ (configureStep s d? b?).currentBuffer = _
    unfold configureStep
    cases d? <;> cases b? <;> simp [joinBatches, sentEvents]

lemma sentEvents_cons (op : Op) (ops : List Op) :
    sentEvents (op :: ops) = sentEvents [op] ++ sentEvents ops := by
  cases op <;> simp [sentEvents]

lemma run_conserve (ops : List Op) :
    ∀ s : EventsServiceState,
      joinBatches (run s ops) ++ (run s ops).currentBuffer
        = (joinBatches s ++ s.currentBuffer) ++ sentEvents ops := by
  induction ops with
  | nil => intro s; simp [run_nil, sentEvents]
  | cons op rest ih =>
    intro s
    rw [run_cons, sentEvents_cons, ih (step s op), step_conserve]
    simp

lemma flushStep_currentBuffer (s : EventsServiceState) :
    (flushStep s).currentBuffer = [] := by
  unfold flushStep
  by_cases h : s.currentBuffer = []
  · simp [List.length_pos, h]
  · have hlen : s.currentBuffer.length > 0 := List.length_pos.mpr h
    simp [hlen, releaseBatch_of_ne s h]

lemma sentEvents_append (l1 l2 : List Op) :
    sentEvents (l1 ++ l2) = sentEvents l1 ++ sentEvents l2 := by
  induction l1 with
  | nil => simp [sentEvents]
  | cons op rest ih =>
    rw [List.cons_append, sentEvents_cons, ih, sentEvents_cons op rest, List.append_assoc]

/-- Claim C1: over any finite trace of sends, flushes, timer callbacks (and
reconfigurations), the concatenation of all batches emitted on
`bufferedEvents$`, in emission order, followed by the events still pending in
`currentBuffer`, equals the sequence of events passed to `send` in arrival
order; hence every sent event appears in exactly one emitted batch once the
buffer has drained (in particular after a trailing `flushBuffer`), no emitted
batch contains an event that was not sent, and relative order is preserved
within and across batches. -/
theorem events_conserved_no_loss_no_dup :
    (∀ (t0 : Int) (ops : List Op),
      joinBatches (run (initState t0) ops) ++ (run (initState t0) ops).currentBuffer
        = sentEvents ops)
    ∧ (∀ (t0 : Int) (ops : List Op),
      joinBatches (run (initState t0) (ops ++ [Op.flush])) = sentEvents ops) := by
  constructor
  · intro t0 ops
    have h := run_conserve ops (initState t0)
    simpa [initState, joinBatches] using h
  · intro t0 ops
    have h1 := run_conserve ops (initState t0)
    have hstep := step_conserve (run (initState t0) ops) Op.flush
    rw [show step (run (initState t0) ops) Op.flush = flushStep (run (initState t0) ops) from rfl]
      at hstep
    rw [flushStep_currentBuffer] at hstep
    rw [run_append]
    rw [show run (run (initState t0) ops) [Op.flush] = flushStep (run (initState t0) ops)
      from rfl]
    calc joinBatches (flushStep (run (initState t0) ops))
        = joinBatches (run (initState t0) ops) ++ (run (initState t0) ops).currentBuffer := by
          simpa [sentEvents] using hstep
      _ = sentEvents ops := by simpa [initState, joinBatches] using h1

/-! Count-threshold release. -/

lemma sends_reach_threshold :
    ∀ (events : List IEventDto) (ts : List Int) (s : EventsServiceState),
      events ≠ [] → ts.length = events.length →
      s.raceFirst = false → 0 < s.cycleCount →
      (s.cycleEventCount : Int) + events.length = s.cycleCount →
      (run s (List.zipWith Op.send events ts)).emittedBatches
          = s.emittedBatches ++ [s.currentBuffer ++ events]
        ∧ (run s (List.zipWith Op.send events ts)).currentBuffer = []
        ∧ (run s (List.zipWith Op.send events ts)).cycleEventCount = 0
        ∧ (run s (List.zipWith Op.send events ts)).cycleDelay = s.DELAY
        ∧ (run s (List.zipWith Op.send events ts)).cycleCount = s.EVENTS_COUNT_BEFORE_SEND := by
  intro events
  induction events with
  | nil => intro ts s hne; exact absurd rfl hne
  | cons e es ih =>
    intro ts s _ hlen hrf hpos hsum
    cases ts with
    | nil => simp at hlen
    | cons t ts' =>
      rw [List.zipWith_cons_cons, run_cons]
      cases es with
      | nil =>
        have hfire : bufferCountFires s.cycleCount (s.cycleEventCount + 1) = true := by
          apply bufferCountFires_true hpos
          push_cast at hsum ⊢
          simpa using hsum
        have hne' : (afterSendTap s e t).currentBuffer ≠ [] := by
          simp [afterSendTap, raceObserve, tapPush]
        rw [show step s (Op.send e t) = sendStep s e t from rfl,
          sendStep_fire s e t hrf hfire, releaseBatch_of_ne _ hne']
        simp [afterSendTap, raceObserve, tapPush, run_nil]
      | cons e2 es2 =>
        have hnofire : bufferCountFires s.cycleCount (s.cycleEventCount + 1) = false := by
          apply bufferCountFires_false hpos
          push_cast at hsum ⊢
          simp only [List.length_cons] at hsum
          push_cast at hsum
          omega
        rw [show step s (Op.send e t) = sendStep s e t from rfl,
          sendStep_no_fire s e t hnofire]
        have hlen' : ts'.length = (e2 :: es2).length := by
          simpa using hlen
        have hrf' : (afterSendTap s e t).raceFirst = false := by
          rw [afterSendTap_raceFirst]
          exact hrf
        have hpos' : 0 < (afterSendTap s e t).cycleCount := by
          simpa [afterSendTap, raceObserve, tapPush] using hpos
        have hsum' : ((afterSendTap s e t).cycleEventCount : Int) + (e2 :: es2).length
            = (afterSendTap s e t).cycleCount := by
          simp only [afterSendTap, raceObserve, tapPush, List.length_cons] at hsum ⊢
          push_cast at hsum ⊢
          omega
        have h := ih ts' (afterSendTap s e t) (by simp) hlen' hrf' hpos' hsum'
        simpa [afterSendTap, raceObserve, tapPush, List.append_assoc] using h

/-- Claim C3, amended: in a cycle opened by a release — every cycle but the
initial one, recognizable by the tap chain preceding the race in the
observer list (`raceFirst = false`) — with the cycle's snapshot count
threshold N (at least 1), an empty buffer, a fresh race count, and no flush
or timer callback occurring, sending exactly N events (at arbitrary times)
yields exactly one additional emitted batch containing exactly those N
events in arrival order, released at the instant the Nth event is admitted
and including that Nth event; the buffer is empty again afterwards.  (In the
initial cycle the race precedes the buffering tap, so the Nth send instead
releases the first N−1 events and defers the Nth: see the counterexample.) -/
theorem count_threshold_exactness (s : EventsServiceState) (N : Nat)
    (events : List IEventDto) (ts : List Int)
    (hrf : s.raceFirst = false)
    (hbuf : s.currentBuffer = []) (hcnt : s.cycleEventCount = 0)
    (hthr : s.cycleCount = (N : Int)) (hN : 1 ≤ N)
    (hlen : events.length = N) (hts : ts.length = N) :
    (run s (List.zipWith Op.send events ts)).emittedBatches = s.emittedBatches ++ [events]
      ∧ (run s (List.zipWith Op.send events ts)).currentBuffer = [] := by
  have hne : events ≠ [] := by
    intro hnil
    rw [hnil] at hlen
    simp at hlen
    omega
  have hpos : 0 < s.cycleCount := by
    rw [hthr]
    exact_mod_cast Nat.lt_of_lt_of_le Nat.zero_lt_one hN
  have hsum : (s.cycleEventCount : Int) + events.length = s.cycleCount := by
    rw [hcnt, hlen, hthr]
    simp
  have h := sends_reach_threshold events ts s hne (by rw [hts, hlen]) hrf hpos hsum
  refine ⟨?_, h.2.1⟩
  rw [h.1, hbuf]
  simp

theorem count_threshold_exactness_witness :
    (stC3.raceFirst = false ∧ stC3.currentBuffer = [] ∧ stC3.cycleEventCount = 0
      ∧ stC3.cycleCount = ((2 : Nat) : Int)
      ∧ 1 ≤ 2 ∧ ([ev 1, ev 2].length = 2) ∧ ([(10 : Int), 20].length = 2))
    ∧ (run stC3 (List.zipWith Op.send [ev 1, ev 2] [10, 20])).emittedBatches
        = stC3.emittedBatches ++ [[ev 1, ev 2]]
    ∧ (run stC3 (List.zipWith Op.send [ev 1, ev 2] [10, 20])).currentBuffer = [] :=
  ⟨⟨rfl, rfl, rfl, rfl, by omega, rfl, rfl⟩,
    (count_threshold_exactness stC3 2 [ev 1, ev 2] [10, 20] rfl rfl rfl rfl
      (by omega) rfl rfl).1,
    (count_threshold_exactness stC3 2 [ev 1, ev 2] [10, 20] rfl rfl rfl rfl
      (by omega) rfl rfl).2⟩

/-! Manual flush. -/

/-- Claim C4: calling flushBuffer while the pending buffer is non-empty
forces immediate release of the current cycle regardless of timer and count
state: the batch emitted at that moment is exactly the pending events and
nothing else, and the buffer empties; concretely, with count threshold 100
and delay 10000, sending 3 events and then flushing releases a single batch
of exactly those 3 events at the flush. -/
theorem manual_flush_immediate_release :
    (∀ s : EventsServiceState, s.currentBuffer ≠ [] →
      (flushStep s).emittedBatches = s.emittedBatches ++ [s.currentBuffer]
        ∧ (flushStep s).currentBuffer = []
        ∧ (flushStep s).totalBatchesSent = s.totalBatchesSent + 1)
    ∧ (run (initState 0) trcC4).emittedBatches = [[ev 1, ev 2, ev 3]]
    ∧ (run (initState 0) trcC4).currentBuffer = [] := by
  refine ⟨?_, rfl, rfl⟩
  intro s h
  have hlen : s.currentBuffer.length > 0 := List.length_pos.mpr h
  unfold flushStep
  rw [if_pos hlen, releaseBatch_of_ne s h]
  exact ⟨rfl, rfl, rfl⟩

theorem manual_flush_immediate_release_witness :
    stBuf1.currentBuffer ≠ []
    ∧ (flushStep stBuf1).emittedBatches = stBuf1.emittedBatches ++ [stBuf1.currentBuffer]
    ∧ (flushStep stBuf1).currentBuffer = [] :=
  ⟨by decide,
   (manual_flush_immediate_release.1 stBuf1 (by decide)).1,
   (manual_flush_immediate_release.1 stBuf1 (by decide)).2.1⟩

/-! No empty batches. -/

lemma flushStep_of_empty (s : EventsServiceState) (h : s.currentBuffer = []) :
    flushStep s = s := by
  unfold flushStep
  simp [h]

lemma flushStep_of_ne (s : EventsServiceState) (h : s.currentBuffer ≠ []) :
    flushStep s = releaseBatch s := by
  unfold flushStep
  simp [List.length_pos.mpr h]

lemma timerFireStep_none (s : EventsServiceState) (t : Int)
    (h : s.timerDeadline = none) : timerFireStep s t = s := by
  unfold timerFireStep
  rw [h]

lemma timerFireStep_due (s : EventsServiceState) (t d : Int)
    (h : s.timerDeadline = some d) (ht : d ≤ t) :
    timerFireStep s t = releaseBatch s := by
  unfold timerFireStep
  rw [h]
  simp [ht]

lemma timerFireStep_notdue (s : EventsServiceState) (t d : Int)
    (h : s.timerDeadline = some d) (ht : ¬ d ≤ t) :
    timerFireStep s t = s := by
  unfold timerFireStep
  rw [h]
  simp [ht]

lemma step_emitted_cases (s : EventsServiceState) (op : Op) :
    (step s op).emittedBatches = s.emittedBatches
    ∨ ∃ b : List IEventDto, b ≠ []
        ∧ (step s op).emittedBatches = s.emittedBatches ++ [b] := by
  cases op with
  | send e t =>
    by_cases h : bufferCountFires s.cycleCount (s.cycleEventCount + 1) = true
    · cases hrf : s.raceFirst with
      | true =>
        by_cases hb : s.currentBuffer = []
        · left
          show (sendStep s e t).emittedBatches = _
          rw [sendStep_fire_raceFirst s e t hrf h, tapPush_emitted,
            releaseBatch_of_empty s hb]
        · right
          refine ⟨s.currentBuffer, hb, ?_⟩
          show (sendStep s e t).emittedBatches = _
          rw [sendStep_fire_raceFirst s e t hrf h, tapPush_emitted,
            releaseBatch_of_ne s hb]
      | false =>
        right
        refine ⟨s.currentBuffer ++ [e], by simp, ?_⟩
        show (sendStep s e t).emittedBatches = _
        rw [sendStep_fire s e t hrf h,
          releaseBatch_of_ne _ (by simp [afterSendTap, raceObserve, tapPush])]
        simp [afterSendTap, raceObserve, tapPush]
    · left
      simp only [Bool.not_eq_true] at h
      show (sendStep s e t).emittedBatches = _
      rw [sendStep_no_fire s e t h]
      simp [afterSendTap, raceObserve, tapPush]
  | flush =>
    by_cases h : s.currentBuffer = []
    · left
      show (flushStep s).emittedBatches = _
      rw [flushStep_of_empty s h]
    · right
      refine ⟨s.currentBuffer, h, ?_⟩
      show (flushStep s).emittedBatches = _
      rw [flushStep_of_ne s h, releaseBatch_of_ne s h]
  | timerFire t =>
    cases hd : s.timerDeadline with
    | none =>
      left
      show (timerFireStep s t).emittedBatches = _
      rw [timerFireStep_none s t hd]
    | some d =>
      by_cases ht : d ≤ t
      · by_cases hb : s.currentBuffer = []
        · left
          show (timerFireStep s t).emittedBatches = _
          rw [timerFireStep_due s t d hd ht, releaseBatch_of_empty s hb]
        · right
          refine ⟨s.currentBuffer, hb, ?_⟩
          show (timerFireStep s t).emittedBatches = _
          rw [timerFireStep_due s t d hd ht, releaseBatch_of_ne s hb]
      · left
        show (timerFireStep s t).emittedBatches = _
        rw [timerFireStep_notdue s t d hd ht]
  | configure d? b? =>
    left
    show (configureStep s d? b?).emittedBatches = _
    cases d? <;> cases b? <;> simp [configureStep]

lemma emitted_nonempty_inv (ops : List Op) :
    ∀ s : EventsServiceState, (∀ b ∈ s.emittedBatches, b ≠ []) →
      ∀ b ∈ (run s ops).emittedBatches, b ≠ [] := by
  induction ops with
  | nil => intro s h; simpa [run_nil] using h
  | cons op rest ih =>
    intro s h
    rw [run_cons]
    apply ih
    rcases step_emitted_cases s op with heq | ⟨b', hb', heq⟩
    · rw [heq]; exact h
    · rw [heq]
      intro b hb
      rcases List.mem_append.mp hb with h1 | h2
      · exact h b h1
      · have hbb : b = b' := List.mem_singleton.mp h2
        rw [hbb]
        exact hb'

/-- Claim C5: no empty batch is ever emitted: flushBuffer on an empty buffer
is a strict no-op (the whole state — in particular totalEventsProcessed,
totalBatchesSent, isProcessingBatch and the pending buffer — is unchanged
and nothing is emitted); a timer callback that finds zero pending events
emits nothing and leaves all metrics, flags and buffers unchanged; and along
every trace from construction, every batch emitted on bufferedEvents$ is
non-empty. -/
theorem no_empty_batches :
    (∀ s : EventsServiceState, s.currentBuffer = [] → flushStep s = s)
    ∧ (∀ (s : EventsServiceState) (t : Int), s.currentBuffer = [] →
        (timerFireStep s t).emittedBatches = s.emittedBatches
        ∧ (timerFireStep s t).totalEventsProcessed = s.totalEventsProcessed
        ∧ (timerFireStep s t).totalBatchesSent = s.totalBatchesSent
        ∧ (timerFireStep s t).isProcessingBatch = s.isProcessingBatch
        ∧ (timerFireStep s t).currentBuffer = s.currentBuffer
        ∧ (timerFireStep s t).bufferSizeValue = s.bufferSizeValue
        ∧ (timerFireStep s t).bufferSizeLog = s.bufferSizeLog)
    ∧ (∀ (t0 : Int) (ops : List Op) (b : List IEventDto),
        b ∈ (run (initState t0) ops).emittedBatches → b ≠ []) := by
  refine ⟨?_, ?_, ?_⟩
  · intro s h
    exact flushStep_of_empty s h
  · intro s t h
    cases hd : s.timerDeadline with
    | none =>
      rw [timerFireStep_none s t hd]
      exact ⟨rfl, rfl, rfl, rfl, rfl, rfl, rfl⟩
    | some d =>
      by_cases ht : d ≤ t
      · rw [timerFireStep_due s t d hd ht, releaseBatch_of_empty s h]
        exact ⟨rfl, rfl, rfl, rfl, rfl, rfl, rfl⟩
      · rw [timerFireStep_notdue s t d hd ht]
        exact ⟨rfl, rfl, rfl, rfl, rfl, rfl, rfl⟩
  · intro t0 ops b hb
    exact emitted_nonempty_inv ops (initState t0) (by simp [initState]) b hb

theorem no_empty_batches_witness :
    ((initState 0).currentBuffer = [] ∧ flushStep (initState 0) = initState 0)
    ∧ (timerFireStep (initState 0) 99).emittedBatches = (initState 0).emittedBatches
    ∧ ([ev 1] ∈ (run (initState 0) [Op.send (ev 1) 0, Op.flush]).emittedBatches
        ∧ [ev 1] ≠ ([] : List IEventDto)) :=
  ⟨⟨rfl, no_empty_batches.1 (initState 0) rfl⟩,
   (no_empty_batches.2.1 (initState 0) 99 rfl).1,
   by decide,
   no_empty_batches.2.2 0 [Op.send (ev 1) 0, Op.flush] [ev 1] (by decide)⟩

/-! Reconfiguration isolation. -/

/-- Claim C6: configure merges the supplied delay/batchSize fields into the
configuration fields only: the open cycle's snapshotted effective delay and
count threshold, its armed timer deadline, its event count and the pending
buffer are all untouched, and the cycle opened by the next release snapshots
the configuration current at that moment — so new values first govern the
next cycle.  Concretely, with a cycle opened at threshold 3, lowering the
batch size to 2 after 2 pending events neither releases nor alters the open
cycle (its 3rd event still closes it), while the following cycle closes
after 2 events. -/
theorem configure_next_cycle_only :
    (∀ (s : EventsServiceState) (d? b? : Option Int),
      (configureStep s d? b?).cycleDelay = s.cycleDelay
      ∧ (configureStep s d? b?).cycleCount = s.cycleCount
      ∧ (configureStep s d? b?).timerDeadline = s.timerDeadline
      ∧ (configureStep s d? b?).cycleEventCount = s.cycleEventCount
      ∧ (configureStep s d? b?).currentBuffer = s.currentBuffer
      ∧ (configureStep s d? b?).emittedBatches = s.emittedBatches)
    ∧ (∀ s : EventsServiceState,
      (releaseBatch s).cycleDelay = s.DELAY
      ∧ (releaseBatch s).cycleCount = s.EVENTS_COUNT_BEFORE_SEND)
    ∧ (run (initState 0) trcC6).emittedBatches
        = [[ev 0], [ev 1, ev 2, ev 3], [ev 4, ev 5]] := by
  refine ⟨?_, ?_, rfl⟩
  · intro s d? b?
    cases d? <;> cases b? <;> simp [configureStep]
  · intro s
    by_cases h : s.currentBuffer = []
    · rw [releaseBatch_of_empty s h]
      exact ⟨rfl, rfl⟩
    · rw [releaseBatch_of_ne s h]
      exact ⟨rfl, rfl⟩

/-! The timer condition is a per-cycle delay, not a debounce. -/

/-- Claim C2 refuted by evaluating the code on the claim's own scenario: the
time-based condition is eventsSubject.pipe(delay(DELAY)) inside race, and
rxjs delay shifts each emission by DELAY, so the closing notifier fires
DELAY after the FIRST event of the open cycle no matter how many sends
follow — it does not rearm on every send.  With the default configuration
(delay 5000, count threshold 100 > 10) and one event every 2500 ms for 10
intervals followed by silence, delivering the scheduled timer callbacks at
their deadlines yields five batches of two events each — the first released
5000 ms after the first event — instead of the claimed single batch of all
10 events released 5000 ms after the last one. -/
theorem inactivity_timer_is_not_a_debounce :
    (run (initState 0) trcC2).emittedBatches
      = [[ev 1, ev 2], [ev 3, ev 4], [ev 5, ev 6], [ev 7, ev 8], [ev 9, ev 10]]
    ∧ (run (initState 0) trcC2).totalBatchesSent = 5
    ∧ (run (initState 0) trcC2).emittedBatches
        ≠ [[ev 1, ev 2, ev 3, ev 4, ev 5, ev 6, ev 7, ev 8, ev 9, ev 10]] := by
  refine ⟨rfl, rfl, ?_⟩
  decide

/-! Configure performs no validation. -/

/-- Claim C7 refuted at a concrete input: configure with batchSize 0 and
delay −5 raises no error and overwrites the previously effective values
(5000 and 100) with −5 and 0. -/
theorem configure_no_validation_counterexample :
    (configureStep (initState 0) (some (-5)) (some 0)).DELAY = -5
    ∧ (configureStep (initState 0) (some (-5)) (some 0)).EVENTS_COUNT_BEFORE_SEND = 0
    ∧ (initState 0).DELAY = 5000
    ∧ (initState 0).EVENTS_COUNT_BEFORE_SEND = 100 :=
  ⟨rfl, rfl, rfl, rfl⟩

/-- Claim C7 amended: configure performs no validation and reports no error:
every supplied field — including a batchSize of 0 and a negative delay — is
applied unconditionally, replacing the previously effective value, while
unsupplied fields are left unchanged and nothing else in the service state
is affected. -/
theorem configure_applies_unvalidated :
    ∀ (s : EventsServiceState) (d? b? : Option Int),
      (configureStep s d? b?).DELAY = d?.getD s.DELAY
      ∧ (configureStep s d? b?).EVENTS_COUNT_BEFORE_SEND
          = b?.getD s.EVENTS_COUNT_BEFORE_SEND
      ∧ (configureStep s d? b?).currentBuffer = s.currentBuffer
      ∧ (configureStep s d? b?).emittedBatches = s.emittedBatches
      ∧ (configureStep s d? b?).totalBatchesSent = s.totalBatchesSent
      ∧ (configureStep s d? b?).totalEventsProcessed = s.totalEventsProcessed := by
  intro s d? b?
  cases d? <;> cases b? <;> simp [configureStep]

/-! Countdown estimate. -/

lemma releaseBatch_DELAY (s : EventsServiceState) : (releaseBatch s).DELAY = s.DELAY := by
  by_cases h : s.currentBuffer = []
  · rw [releaseBatch_of_empty s h]
  · rw [releaseBatch_of_ne s h]

lemma releaseBatch_last (s : EventsServiceState) :
    (releaseBatch s).lastEventTimestamp = s.lastEventTimestamp := by
  by_cases h : s.currentBuffer = []
  · rw [releaseBatch_of_empty s h]
  · rw [releaseBatch_of_ne s h]

lemma sendStep_DELAY (s : EventsServiceState) (e : IEventDto) (t : Int) :
    (sendStep s e t).DELAY = s.DELAY := by
  by_cases hf : bufferCountFires s.cycleCount (s.cycleEventCount + 1) = true
  · cases hrf : s.raceFirst with
    | true =>
      rw [sendStep_fire_raceFirst s e t hrf hf]
      show (releaseBatch s).DELAY = s.DELAY
      exact releaseBatch_DELAY s
    | false =>
      rw [sendStep_fire s e t hrf hf, releaseBatch_DELAY]
      rfl
  · simp only [Bool.not_eq_true] at hf
    rw [sendStep_no_fire s e t hf]
    rfl

lemma sendStep_last (s : EventsServiceState) (e : IEventDto) (t : Int) :
    (sendStep s e t).lastEventTimestamp = t := by
  by_cases hf : bufferCountFires s.cycleCount (s.cycleEventCount + 1) = true
  · cases hrf : s.raceFirst with
    | true => rw [sendStep_fire_raceFirst s e t hrf hf]; rfl
    | false =>
      rw [sendStep_fire s e t hrf hf, releaseBatch_last]
      rfl
  · simp only [Bool.not_eq_true] at hf
    rw [sendStep_no_fire s e t hf]
    rfl

lemma flushStep_DELAY (s : EventsServiceState) : (flushStep s).DELAY = s.DELAY := by
  by_cases h : s.currentBuffer = []
  · rw [flushStep_of_empty s h]
  · rw [flushStep_of_ne s h, releaseBatch_DELAY]

lemma flushStep_last (s : EventsServiceState) :
    (flushStep s).lastEventTimestamp = s.lastEventTimestamp := by
  by_cases h : s.currentBuffer = []
  · rw [flushStep_of_empty s h]
  · rw [flushStep_of_ne s h, releaseBatch_last]

lemma timerFireStep_DELAY (s : EventsServiceState) (t : Int) :
    (timerFireStep s t).DELAY = s.DELAY := by
  cases hd : s.timerDeadline with
  | none => rw [timerFireStep_none s t hd]
  | some d =>
    by_cases ht : d ≤ t
    · rw [timerFireStep_due s t d hd ht, releaseBatch_DELAY]
    · rw [timerFireStep_notdue s t d hd ht]

lemma timerFireStep_last (s : EventsServiceState) (t : Int) :
    (timerFireStep s t).lastEventTimestamp = s.lastEventTimestamp := by
  cases hd : s.timerDeadline with
  | none => rw [timerFireStep_none s t hd]
  | some d =>
    by_cases ht : d ≤ t
    · rw [timerFireStep_due s t d hd ht, releaseBatch_last]
    · rw [timerFireStep_notdue s t d hd ht]

lemma configureStep_DELAY (s : EventsServiceState) (d? b? : Option Int) :
    (configureStep s d? b?).DELAY = d?.getD s.DELAY := by
  cases d? <;> cases b? <;> simp [configureStep]

lemma configureStep_last (s : EventsServiceState) (d? b? : Option Int) :
    (configureStep s d? b?).lastEventTimestamp = s.lastEventTimestamp := by
  cases d? <;> cases b? <;> simp [configureStep]

lemma run_DELAY (ops : List Op) :
    ∀ s : EventsServiceState, (run s ops).DELAY = effDelay s.DELAY ops := by
  induction ops with
  | nil => intro s; rfl
  | cons op rest ih =>
    intro s
    rw [run_cons, ih]
    cases op with
    | send e t => rw [show (step s (Op.send e t)).DELAY = s.DELAY from sendStep_DELAY s e t]; rfl
    | flush => rw [show (step s Op.flush).DELAY = s.DELAY from flushStep_DELAY s]; rfl
    | timerFire t =>
      rw [show (step s (Op.timerFire t)).DELAY = s.DELAY from timerFireStep_DELAY s t]; rfl
    | configure d? b? =>
      rw [show (step s (Op.configure d? b?)).DELAY = d?.getD s.DELAY from
        configureStep_DELAY s d? b?]
      rfl

lemma run_last (ops : List Op) :
    ∀ s : EventsServiceState,
      (run s ops).lastEventTimestamp = lastSendTime s.lastEventTimestamp ops := by
  induction ops with
  | nil => intro s; rfl
  | cons op rest ih =>
    intro s
    rw [run_cons, ih]
    cases op with
    | send e t =>
      rw [show (step s (Op.send e t)).lastEventTimestamp = t from sendStep_last s e t]; rfl
    | flush =>
      rw [show (step s Op.flush).lastEventTimestamp = s.lastEventTimestamp from
        flushStep_last s]
      rfl
    | timerFire t =>
      rw [show (step s (Op.timerFire t)).lastEventTimestamp = s.lastEventTimestamp from
        timerFireStep_last s t]
      rfl
    | configure d? b? =>
      rw [show (step s (Op.configure d? b?)).lastEventTimestamp = s.lastEventTimestamp from
        configureStep_last s d? b?]
      rfl

/-- Claim C9 refuted at a concrete input: with the service freshly
constructed at time 0 — empty buffer, no cycle active, configured delay
5000 — after 7000 ms of idleness the method returns 0, not the full
configured delay 5000: the countdown keeps running from the construction
timestamp instead of resetting while no cycle is active. -/
theorem time_until_next_batch_counterexample :
    (initState 0).currentBuffer = []
    ∧ (initState 0).timerDeadline = none
    ∧ (initState 0).DELAY = 5000
    ∧ getTimeUntilNextBatch (initState 0) 7000 = 0
    ∧ (0 : Int) ≠ 5000 :=
  ⟨rfl, rfl, rfl, by decide, by decide⟩

/-- Claim C9 amended: after any trace, getTimeUntilNextBatch returns
max(0, DELAY − (now − lastEventTimestamp)) where DELAY is the currently
configured delay and lastEventTimestamp is the time of the most recent send
(the construction time when there has been none).  While a cycle is active
this is the claimed countdown; but when the buffer is empty and no cycle is
active the method does not return the full configured delay — it keeps
counting down from the last activity and decays to 0. -/
theorem time_until_next_batch_formula :
    ∀ (s : EventsServiceState) (ops : List Op) (now : Int),
      getTimeUntilNextBatch (run s ops) now
        = max 0 (effDelay s.DELAY ops - (now - lastSendTime s.lastEventTimestamp ops)) := by
  intro s ops now
  unfold getTimeUntilNextBatch
  rw [run_DELAY, run_last]

/-! Metrics. -/

lemma roundTo1_int (n : Int) : roundTo1 ((n : ℚ)) = (n : ℚ) := by
  unfold roundTo1
  have h1 : ((n : ℚ) * 10 + 1 / 2) = ((10 * n : Int) : ℚ) + 1 / 2 := by
    push_cast
    ring
  rw [h1, Int.floor_int_add]
  have h2 : ⌊(1 / 2 : ℚ)⌋ = 0 := by
    rw [Int.floor_eq_zero_iff]
    constructor <;> norm_num
  rw [h2, add_zero]
  push_cast
  ring

lemma roundTo1_natCast (n : Nat) : roundTo1 ((n : ℚ)) = (n : ℚ) := by
  have h := roundTo1_int (n : Int)
  push_cast at h
  exact h

lemma updateAverageBatchSize_first (n sz : Nat) (hn : n ≠ 0) :
    updateAverageBatchSize n 0 sz = (sz : ℚ) := by
  unfold updateAverageBatchSize
  simp [hn, roundTo1_natCast]

lemma updateAverageBatchSize_rec (n : Nat) (avg : ℚ) (sz : Nat)
    (hn : n ≠ 0) (havg : avg ≠ 0) :
    updateAverageBatchSize n avg sz
      = roundTo1 ((avg * ((n : ℚ) - 1) + (sz : ℚ)) / (n : ℚ)) := by
  unfold updateAverageBatchSize
  simp [hn, havg]

lemma updateAverageBatchSize_guard (avg : ℚ) (sz : Nat) :
    updateAverageBatchSize 0 avg sz = avg := by
  unfold updateAverageBatchSize
  simp

lemma updateAverage_stale2 : updateAverageBatchSize 1 0 6 = (6 : ℚ) := by
  rw [show ((6 : ℚ)) = (((6 : Nat) : ℚ)) by norm_num]
  exact updateAverageBatchSize_first 1 6 (by omega)

lemma updateAverage_stale3 : updateAverageBatchSize 2 6 10 = (8 : ℚ) := by
  rw [updateAverageBatchSize_rec 2 6 10 (by omega) (by norm_num)]
  have h : ((6 : ℚ) * (((2 : Nat) : ℚ) - 1) + ((10 : Nat) : ℚ)) / ((2 : Nat) : ℚ) = 8 := by
    push_cast
    norm_num
  rw [h]
  exact_mod_cast roundTo1_int 8

lemma dataMetricsAfter_4_6_10 : dataMetricsAfter [4, 6, 10] = (20, 3, 8) := by
  unfold dataMetricsAfter
  simp only [List.foldl_cons, List.foldl_nil]
  norm_num [updateAverageBatchSize_guard, updateAverage_stale2, updateAverage_stale3]

/-- Claim C8 refuted at a concrete input: the `bufferedEvents$` handler runs
synchronously inside the engine's emission, before the Angular effect that
copies the engine's totalBatchesSent into the DataService signal can run,
so updateAverageBatchSize is applied with the STALE previous count: the
first batch records no average at all (the `totalBatchesSent() === 0` guard
sees 0 and returns), and after batches of sizes [4, 6, 10] the stored
running average is 8 — batch 2 sets it to 6 (stale count 1, stored average
still 0), batch 3 computes (6·(2−1)+10)/2 = 8 — not the claimed
≈ 6.67 = 20/3 with n the new totalBatchesSent. -/
theorem metrics_average_stale_count_counterexample :
    dataMetricsAfter [4, 6, 10] = (20, 3, 8)
    ∧ ((8 : ℚ) ≠ 20 / 3)
    ∧ updateAverageBatchSize 0 0 4 = 0 := by
  refine ⟨dataMetricsAfter_4_6_10, by norm_num, updateAverageBatchSize_guard 0 4⟩

/-- Claim C8 amended: each emitted non-empty batch of size s increments the
engine's totalBatchesSent by exactly 1 and totalEventsProcessed by exactly
s (after sizes [4, 6, 10] the engine totals are 20 events and 3 batches);
but the DataService average handler runs synchronously inside the engine's
emission, before the effect copying totalBatchesSent has run, so
updateAverageBatchSize is evaluated at the stale previous count: at stale
count 0 (the first batch) it records nothing; at a stale count n ≥ 1 with
stored average 0 it sets avg = s; otherwise it stores the recurrence value
(avg·(n−1)+s)/n — at the stale n — rounded to one decimal place
(Math.round(avg·10)/10).  After batches [4, 6, 10] the stored running
average is therefore 8, not ≈ 6.67. -/
theorem metrics_totals_exact_average_stale :
    (∀ s : EventsServiceState, s.currentBuffer ≠ [] →
      (releaseBatch s).totalBatchesSent = s.totalBatchesSent + 1
      ∧ (releaseBatch s).totalEventsProcessed
          = s.totalEventsProcessed + s.currentBuffer.length)
    ∧ (∀ (avg : ℚ) (sz : Nat), updateAverageBatchSize 0 avg sz = avg)
    ∧ (∀ (n : Nat) (avg : ℚ) (sz : Nat), n ≠ 0 → avg ≠ 0 →
        updateAverageBatchSize n avg sz
          = roundTo1 ((avg * ((n : ℚ) - 1) + (sz : ℚ)) / (n : ℚ)))
    ∧ (∀ (n sz : Nat), n ≠ 0 → updateAverageBatchSize n 0 sz = (sz : ℚ))
    ∧ dataMetricsAfter [4, 6, 10] = (20, 3, 8) := by
  refine ⟨?_, updateAverageBatchSize_guard, updateAverageBatchSize_rec,
    updateAverageBatchSize_first, dataMetricsAfter_4_6_10⟩
  intro s h
  rw [releaseBatch_of_ne s h]
  exact ⟨rfl, rfl⟩

theorem metrics_totals_exact_average_stale_witness :
    (stBuf1.currentBuffer ≠ []
      ∧ (releaseBatch stBuf1).totalBatchesSent = stBuf1.totalBatchesSent + 1)
    ∧ updateAverageBatchSize 0 5 9 = 5
    ∧ ((2 : Nat) ≠ 0 ∧ (6 : ℚ) ≠ 0
      ∧ updateAverageBatchSize 2 6 10
          = roundTo1 (((6 : ℚ) * (((2 : Nat) : ℚ) - 1) + ((10 : Nat) : ℚ)) / ((2 : Nat) : ℚ)))
    ∧ ((1 : Nat) ≠ 0 ∧ updateAverageBatchSize 1 0 7 = ((7 : Nat) : ℚ)) :=
  ⟨⟨by decide, (metrics_totals_exact_average_stale.1 stBuf1 (by decide)).1⟩,
   metrics_totals_exact_average_stale.2.1 5 9,
   ⟨by omega, by norm_num,
    metrics_totals_exact_average_stale.2.2.1 2 6 10 (by omega) (by norm_num)⟩,
   ⟨by omega, metrics_totals_exact_average_stale.2.2.2.1 1 7 (by omega)⟩⟩

/-! Count-threshold deferral in the initial cycle. -/

set_option maxRecDepth 10000 in
/-- Claim C3 refuted at a concrete input: on a fresh service the closing
race was subscribed to eventsSubject before the buffering tap, so at N =
100 — the count threshold in effect for the initial cycle — sending exactly
100 events releases a batch of only the first 99: bufferCount fires on the
100th event before the tap has buffered it, and that event is deferred to
the next cycle (it stays pending, unseen by the new cycle's race), instead
of the claimed single batch of exactly the 100 sent events with the 100th
included. -/
theorem count_threshold_first_cycle_counterexample :
    (initState 0).cycleCount = 100
    ∧ trcC3cx.length = 100
    ∧ (run (initState 0) trcC3cx).emittedBatches.map List.length = [99]
    ∧ (run (initState 0) trcC3cx).currentBuffer = [ev 99]
    ∧ (run (initState 0) trcC3cx).cycleEventCount = 0
    ∧ (run (initState 0) trcC3cx).emittedBatches ≠ [sentEvents trcC3cx] := by
  refine ⟨rfl, rfl, rfl, rfl, rfl, ?_⟩
  decide


/-! Buffer-size reporting. -/

lemma step_sizeValue (s : EventsServiceState) (op : Op)
    (h : s.bufferSizeValue = s.currentBuffer.length) :
    (step s op).bufferSizeValue = (step s op).currentBuffer.length := by
  cases op with
  | send e t =>
    show (sendStep s e t).bufferSizeValue = (sendStep s e t).currentBuffer.length
    by_cases hf : bufferCountFires s.cycleCount (s.cycleEventCount + 1) = true
    · cases hrf : s.raceFirst with
      | true =>
        rw [sendStep_fire_raceFirst s e t hrf hf]
        simp [tapPush]
      | false =>
        rw [sendStep_fire s e t hrf hf,
          releaseBatch_of_ne _ (by simp [afterSendTap, raceObserve, tapPush])]
        rfl
    · simp only [Bool.not_eq_true] at hf
      rw [sendStep_no_fire s e t hf]
      simp [afterSendTap, raceObserve, tapPush]
  | flush =>
    show (flushStep s).bufferSizeValue = (flushStep s).currentBuffer.length
    by_cases hb : s.currentBuffer = []
    · rw [flushStep_of_empty s hb]
      exact h
    · rw [flushStep_of_ne s hb, releaseBatch_of_ne s hb]
      rfl
  | timerFire t =>
    show (timerFireStep s t).bufferSizeValue = (timerFireStep s t).currentBuffer.length
    cases hd : s.timerDeadline with
    | none =>
      rw [timerFireStep_none s t hd]
      exact h
    | some d =>
      by_cases ht : d ≤ t
      · rw [timerFireStep_due s t d hd ht]
        by_cases hb : s.currentBuffer = []
        · rw [releaseBatch_of_empty s hb]
          exact h
        · rw [releaseBatch_of_ne s hb]
          rfl
      · rw [timerFireStep_notdue s t d hd ht]
        exact h
  | configure d? b? =>
    show (configureStep s d? b?).bufferSizeValue = (configureStep s d? b?).currentBuffer.length
    cases d? <;> cases b? <;> simpa [configureStep] using h

lemma run_sizeValue (ops : List Op) :
    ∀ s : EventsServiceState, s.bufferSizeValue = s.currentBuffer.length →
      (run s ops).bufferSizeValue = (run s ops).currentBuffer.length := by
  induction ops with
  | nil => intro s h; exact h
  | cons op rest ih =>
    intro s h
    rw [run_cons]
    exact ih _ (step_sizeValue s op h)

/-- Claim C10: getCurrentBufferSize equals the number of events admitted via
send since the last emitted batch — the number of sent events not yet
covered by an emitted batch — along every trace; it is 0 at construction
and, because the buffer is cleared at every batch emission, returns to 0
immediately after each batch; bufferSize$'s current value always equals it.
The emission log of bufferSize$ per operation: a send that does not complete
a count threshold publishes the new count; a send that completes it in a
tap-first cycle publishes the new count and then the 0 of the batch
emission; in the initial, race-first cycle the threshold fires before the
event is buffered, so the 0 of the (possibly empty, hence skipped) batch
comes first and the deferred event's count 1 after; a flush publishes a 0
exactly when the buffer was non-empty. -/
theorem buffer_size_reporting :
    (∀ t0 : Int, getCurrentBufferSize (initState t0) = 0)
    ∧ (∀ (t0 : Int) (ops : List Op),
        (joinBatches (run (initState t0) ops)).length
            + getCurrentBufferSize (run (initState t0) ops)
          = (sentEvents ops).length)
    ∧ (∀ (t0 : Int) (ops : List Op),
        (run (initState t0) ops).bufferSizeValue
          = getCurrentBufferSize (run (initState t0) ops))
    ∧ (∀ (t0 : Int) (ops : List Op) (e : IEventDto) (t : Int),
        (run (initState t0) (ops ++ [Op.send e t])).bufferSizeLog
          = (run (initState t0) ops).bufferSizeLog
            ++ (if bufferCountFires (run (initState t0) ops).cycleCount
                    ((run (initState t0) ops).cycleEventCount + 1) then
                  (if (run (initState t0) ops).raceFirst then
                    (if getCurrentBufferSize (run (initState t0) ops) = 0 then [1]
                     else [0, 1])
                   else [getCurrentBufferSize (run (initState t0) ops) + 1, 0])
                else [getCurrentBufferSize (run (initState t0) ops) + 1]))
    ∧ (∀ (t0 : Int) (ops : List Op),
        (run (initState t0) (ops ++ [Op.flush])).bufferSizeLog
          = (run (initState t0) ops).bufferSizeLog
            ++ (if getCurrentBufferSize (run (initState t0) ops) = 0 then []
                else [0])) := by
  refine ⟨fun t0 => rfl, ?_, ?_, ?_, ?_⟩
  · intro t0 ops
    have h := congrArg List.length (run_conserve ops (initState t0))
    simpa [initState, joinBatches, getCurrentBufferSize] using h
  · intro t0 ops
    exact run_sizeValue ops (initState t0) rfl
  · intro t0 ops e t
    rw [run_append]
    rw [show run (run (initState t0) ops) [Op.send e t]
      = sendStep (run (initState t0) ops) e t from rfl]
    set r := run (initState t0) ops with hr
    by_cases hf : bufferCountFires r.cycleCount (r.cycleEventCount + 1) = true
    · cases hrf : r.raceFirst with
      | true =>
        rw [sendStep_fire_raceFirst r e t hrf hf]
        rw [show (tapPush (releaseBatch r) e t).bufferSizeLog
          = (releaseBatch r).bufferSizeLog
            ++ [(releaseBatch r).currentBuffer.length + 1] from rfl]
        by_cases hb : r.currentBuffer = []
        · rw [releaseBatch_of_empty r hb]
          simp [hf, hrf, getCurrentBufferSize, hb]
        · rw [releaseBatch_of_ne r hb]
          simp [hf, hrf, getCurrentBufferSize, List.length_eq_zero, hb]
      | false =>
        rw [sendStep_fire r e t hrf hf,
          releaseBatch_of_ne _ (by simp [afterSendTap, raceObserve, tapPush])]
        simp [hf, hrf, afterSendTap, raceObserve, tapPush, getCurrentBufferSize]
    · simp only [Bool.not_eq_true] at hf
      rw [sendStep_no_fire r e t hf]
      simp [hf, afterSendTap, raceObserve, tapPush, getCurrentBufferSize]
  · intro t0 ops
    rw [run_append]
    rw [show run (run (initState t0) ops) [Op.flush]
      = flushStep (run (initState t0) ops) from rfl]
    set r := run (initState t0) ops with hr
    by_cases hb : r.currentBuffer = []
    · rw [flushStep_of_empty r hb]
      simp [getCurrentBufferSize, hb]
    · rw [flushStep_of_ne r hb, releaseBatch_of_ne r hb]
      simp [getCurrentBufferSize, hb]

end BufferService
